import Mathlib

/-!
Verification of the mongorepo generic repository layer.

The Go sources under scrutiny are `src/repository.go` and `src/querybuilder.go`
(package `repo`): a generic MongoDB repository deriving identity and index
metadata from struct tags, plus a templated query builder.  This file embeds
the tag-processing, query-construction and operation-dispatch logic shallowly:
strings become `List Char`, Go slices become Lean lists, fallible functions
return `Except`, and the interaction with the MongoDB collection (an external
collaborator, spec section 6) is modelled as pure list transformations over a
collection state `List Doc` together with an explicit trace of the store
operations a call issues.
-/

namespace MongoRepo

/-- Strings of the embedded program: plain lists of characters. -/
abbrev Str := List Char

/-- Convenience coercion from Lean string literals to the embedded strings. -/
def str (s : String) : Str := s.data

/-- Whitespace characters recognised by trimming and by the JSON scanner. -/
def isWs (c : Char) : Bool := c = ' ' || c = '\n' || c = '\t' || c = '\r'

/-- Embeds Go `strings.Split` with a single-character separator: the result
never is empty, and splitting the empty string yields one empty group. -/
def splitOnChar (sep : Char) : Str → List Str
  | [] => [[]]
  | c :: rest =>
    if c = sep then
      [] :: splitOnChar sep rest
    else
      match splitOnChar sep rest with
      | [] => [[c]]
      | g :: gs => (c :: g) :: gs

/-- Embeds Go `strings.TrimSpace` (restricted to ASCII whitespace). -/
def trimStr (s : Str) : Str :=
  ((s.dropWhile isWs).reverse.dropWhile isWs).reverse

/-- Tests whether `pat` occurs at the head of `s`. -/
def headMatches : Str → Str → Bool
  | [], _ => true
  | _ :: _, [] => false
  | p :: ps, c :: cs => p = c && headMatches ps cs

/-- Fuel-indexed worker for `replaceAll`; the fuel dominates the length of the
scanned string so the recursion is structural. -/
def replaceAllGo (pat rep : Str) : Nat → Str → Str
  | 0, s => s
  | _ + 1, [] => []
  | fuel + 1, c :: rest =>
    if pat ≠ [] && headMatches pat (c :: rest) then
      rep ++ replaceAllGo pat rep fuel (List.drop (pat.length - 1) rest)
    else
      c :: replaceAllGo pat rep fuel rest

/-- Embeds Go `strings.Replace(s, pat, rep, -1)`: replace every
non-overlapping occurrence of `pat` left to right; inserted text is not
rescanned. -/
def replaceAll (s pat rep : Str) : Str :=
  replaceAllGo pat rep s.length s

/-- Decimal digit for a value below ten. -/
def digitChar (d : Nat) : Char := Char.ofNat (48 + d)

/-- Fuel-indexed decimal rendering of a natural number. -/
def natToStrAux : Nat → Nat → Str
  | 0, _ => []
  | fuel + 1, n =>
    if n < 10 then [digitChar n]
    else natToStrAux fuel (n / 10) ++ [digitChar (n % 10)]

/-- Decimal rendering of a natural number. -/
def natToStr (n : Nat) : Str := natToStrAux (n + 1) n

/-- Decimal rendering of an integer, the form `fmt.Sprintf`/`json.Marshal`
produce for Go ints. -/
def intToStr (n : Int) : Str :=
  if n < 0 then '-' :: natToStr n.natAbs else natToStr n.toNat

/-- ASCII decimal digit test. -/
def isDigit (c : Char) : Bool := '0' ≤ c && c ≤ '9'

/-- Numeric value of a digit string (assumes every character is a digit). -/
def digitsToNat (s : Str) : Nat :=
  s.foldl (fun a c => a * 10 + (c.toNat - 48)) 0

/-- Embeds Go `strconv.Atoi`: an optional sign followed by one or more
digits, nothing else (no spaces); `none` is the error case. -/
def atoi : Str → Option Int
  | [] => none
  | '-' :: rest =>
    if rest ≠ [] && rest.all isDigit then some (-(digitsToNat rest : Int)) else none
  | '+' :: rest =>
    if rest ≠ [] && rest.all isDigit then some (digitsToNat rest) else none
  | s =>
    if s.all isDigit then some (digitsToNat s) else none

/-- Error-propagating map over a list, the shape of the Go loops that build a
result slice and return on the first error. -/
def emapM (f : α → Except ε β) : List α → Except ε (List β)
  | [] => .ok []
  | x :: xs =>
    match f x with
    | .error e => .error e
    | .ok y =>
      match emapM f xs with
      | .error e => .error e
      | .ok ys => .ok (y :: ys)

/-! ## BSON / JSON value model

`bson.UnmarshalExtJSON` and `encoding/json` are external libraries; they are
modelled here on the fragment the repository exercises: objects, arrays,
strings with the escapes `\"` and `\\`, integers, booleans and null.
Documents (`bson.M` / `bson.D`) are association lists in textual order. -/

/-- A parsed JSON/BSON value. -/
inductive JVal where
  | jnull : JVal
  | jbool : Bool → JVal
  | jint : Int → JVal
  | jstr : Str → JVal
  | jarr : List JVal → JVal
  | jobj : List (Str × JVal) → JVal

/-- A document: field names mapped to values, in textual order. -/
abbrev Doc := List (Str × JVal)

/-- A scalar query parameter (a Go `interface{}` argument of scalar type). -/
inductive PScalar where
  | pint : Int → PScalar
  | pstr : Str → PScalar
  | pbool : Bool → PScalar
  | pnull : PScalar

/-- A query parameter: either a scalar or a slice of scalars.  The slice form
arises when a Go variadic `params` slice is itself passed as one variadic
argument (without `...`), which wraps the whole caller slice in a single
`interface{}` value. -/
inductive PVal where
  | scalar : PScalar → PVal
  | arr : List PScalar → PVal

/-- JSON string quoting as `json.Marshal` performs it, restricted to the
escapes `\"` and `\\`. -/
def jsonQuote (s : Str) : Str :=
  '"' :: (s.flatMap fun c =>
    if c = '"' then ['\\', '"']
    else if c = '\\' then ['\\', '\\']
    else [c]) ++ ['"']

/-- Embeds `json.Marshal` on scalar values. -/
def marshalScalar : PScalar → Str
  | .pint n => intToStr n
  | .pstr s => jsonQuote s
  | .pbool true => str "true"
  | .pbool false => str "false"
  | .pnull => str "null"

/-- Embeds `json.Marshal` on parameter values: scalars directly, slices as a
comma-separated bracketed list. -/
def marshalPVal : PVal → Str
  | .scalar s => marshalScalar s
  | .arr xs =>
    '[' :: (List.intercalate [','] (xs.map marshalScalar)) ++ [']']

/-! ### A strict JSON parser

Single fuel-indexed function; the `PJob` tag multiplexes the three mutually
recursive productions (value, object fields, array elements) so the recursion
stays structural in the fuel and kernel-reducible.  Numbers are integers only;
this models the fragment of `bson.UnmarshalExtJSON` the repository's tests and
examples exercise. -/

/-- Drops leading whitespace. -/
def skipWsDef (s : Str) : Str := s.dropWhile isWs

/-- Production selector for the JSON parser. -/
inductive PJob where
  | val : PJob
  | objFields : PJob
  | arrElems : PJob

/-- Result of one parser production. -/
inductive PRes where
  | v : JVal → PRes
  | fields : List (Str × JVal) → PRes
  | elems : List JVal → PRes

/-- A parse error message. -/
abbrev PErr := Str

/-- Scans a JSON string body after the opening quote, returning the decoded
characters and the rest after the closing quote. -/
def scanStr : Nat → Str → Except PErr (Str × Str)
  | 0, _ => .error (str "string fuel exhausted")
  | _ + 1, [] => .error (str "unterminated string")
  | fuel + 1, c :: rest =>
    if c = '"' then .ok ([], rest)
    else if c = '\\' then
      match rest with
      | '"' :: rest' =>
        match scanStr fuel rest' with
        | .error e => .error e
        | .ok (s, r) => .ok ('"' :: s, r)
      | '\\' :: rest' =>
        match scanStr fuel rest' with
        | .error e => .error e
        | .ok (s, r) => .ok ('\\' :: s, r)
      | _ => .error (str "unsupported escape")
    else
      match scanStr fuel rest with
      | .error e => .error e
      | .ok (s, r) => .ok (c :: s, r)

/-- Scans an integer literal: optional minus then a maximal digit run; a
following `.`, `e` or `E` (a float) is outside the modelled fragment and is
rejected. -/
def scanInt (s : Str) : Except PErr (Int × Str) :=
  let (neg, s') := match s with
    | '-' :: rest => (true, rest)
    | _ => (false, s)
  let digits := s'.takeWhile isDigit
  let rest := s'.dropWhile isDigit
  if digits = [] then .error (str "invalid number")
  else
    match rest with
    | c :: _ =>
      if c = '.' || c = 'e' || c = 'E' then .error (str "unsupported number form")
      else .ok (if neg then -(digitsToNat digits : Int) else digitsToNat digits, rest)
    | [] => .ok (if neg then -(digitsToNat digits : Int) else digitsToNat digits, [])

/-- The JSON parser.  `parseTok fuel .val s` parses one value from `s` and
returns it with the unconsumed rest; the `.objFields` and `.arrElems` jobs
parse the comma-separated interiors after the opening brace or bracket. -/
def parseTok : Nat → PJob → Str → Except PErr (PRes × Str)
  | 0, _, _ => .error (str "fuel exhausted")
  | fuel + 1, .val, s0 =>
    match skipWsDef s0 with
    | [] => .error (str "unexpected end of input")
    | c :: rest =>
      if c = '{' then
        match skipWsDef rest with
        | '}' :: rest' => .ok (.v (.jobj []), rest')
        | _ =>
          match parseTok fuel .objFields rest with
          | .error e => .error e
          | .ok (.fields fs, r) => .ok (.v (.jobj fs), r)
          | .ok _ => .error (str "internal")
      else if c = '[' then
        match skipWsDef rest with
        | ']' :: rest' => .ok (.v (.jarr []), rest')
        | _ =>
          match parseTok fuel .arrElems rest with
          | .error e => .error e
          | .ok (.elems xs, r) => .ok (.v (.jarr xs), r)
          | .ok _ => .error (str "internal")
      else if c = '"' then
        match scanStr rest.length rest with
        | .error e => .error e
        | .ok (s, r) => .ok (.v (.jstr s), r)
      else if c = 't' then
        if headMatches (str "rue") rest then .ok (.v (.jbool true), rest.drop 3)
        else .error (str "invalid literal")
      else if c = 'f' then
        if headMatches (str "alse") rest then .ok (.v (.jbool false), rest.drop 4)
        else .error (str "invalid literal")
      else if c = 'n' then
        if headMatches (str "ull") rest then .ok (.v .jnull, rest.drop 3)
        else .error (str "invalid literal")
      else if c = '-' || isDigit c then
        match scanInt (c :: rest) with
        | .error e => .error e
        | .ok (n, r) => .ok (.v (.jint n), r)
      else .error (str "unexpected character")
  | fuel + 1, .objFields, s0 =>
    match skipWsDef s0 with
    | '"' :: rest =>
      match scanStr rest.length rest with
      | .error e => .error e
      | .ok (key, r1) =>
        match skipWsDef r1 with
        | ':' :: r2 =>
          match parseTok fuel .val r2 with
          | .error e => .error e
          | .ok (.v v, r3) =>
            (match skipWsDef r3 with
             | ',' :: r4 =>
               match parseTok fuel .objFields r4 with
               | .error e => .error e
               | .ok (.fields fs, r5) => .ok (.fields ((key, v) :: fs), r5)
               | .ok _ => .error (str "internal")
             | '}' :: r4 => .ok (.fields [(key, v)], r4)
             | _ => .error (str "expected comma or closing brace"))
          | .ok _ => .error (str "internal")
        | _ => .error (str "expected colon")
    | _ => .error (str "expected field name")
  | fuel + 1, .arrElems, s0 =>
    match parseTok fuel .val s0 with
    | .error e => .error e
    | .ok (.v v, r1) =>
      (match skipWsDef r1 with
       | ',' :: r2 =>
         match parseTok fuel .arrElems r2 with
         | .error e => .error e
         | .ok (.elems xs, r3) => .ok (.elems (v :: xs), r3)
         | .ok _ => .error (str "internal")
       | ']' :: r2 => .ok (.elems [v], r2)
       | _ => .error (str "expected comma or closing bracket"))
    | .ok _ => .error (str "internal")

/-- Parses one complete JSON value; trailing non-whitespace is an error. -/
def parseJson (s : Str) : Except PErr JVal :=
  match parseTok (s.length + 1) .val s with
  | .error e => .error e
  | .ok (.v v, rest) =>
    if skipWsDef rest = [] then .ok v else .error (str "trailing characters")
  | .ok _ => .error (str "internal")

/-- Embeds `bson.UnmarshalExtJSON` into a `bson.M`: the top-level value must
be an object. -/
def parseTopObj (s : Str) : Except PErr Doc :=
  match parseJson s with
  | .error e => .error e
  | .ok (.jobj fs) => .ok fs
  | .ok _ => .error (str "top-level value is not a document")

/-- Embeds `json.Unmarshal` into `[]map[string]int` followed by the flattening
loop of `ConstructQuery`: the text must be an array of objects whose values
are all integers, and the resulting `bson.D` lists every key/direction pair in
order. -/
def parseSortList (s : Str) : Except PErr (List (Str × Int)) :=
  match parseJson s with
  | .error e => .error e
  | .ok (.jarr xs) =>
    (emapM (fun x =>
        match x with
        | JVal.jobj fs =>
          emapM (fun p =>
              match p.2 with
              | JVal.jint n => .ok (p.1, n)
              | _ => .error (str "sort direction is not an integer"))
            fs
        | _ => .error (str "sort entry is not an object"))
      xs).map List.flatten
  | .ok _ => .error (str "sort text is not an array")

/-! ## Schema introspection (`setIdField`, `ensureSimpleIndexes`,
`ensureCompoundIndex`, `NewMongoRepository` of `src/repository.go`)

A record type is embedded as its reflective description: the field list in
declaration order, each field carrying its name and its `bson`, `index` and
`cindex` tag strings (an absent tag is the empty string, as `Tag.Get`
returns). -/

/-- One struct field as reflection presents it. -/
structure Field where
  name : Str
  bsonTag : Str
  indexTag : Str
  cindexTag : Str
deriving DecidableEq

/-- Placeholder field, the zero value used by lookups with a default. -/
def defaultField : Field := ⟨[], [], [], []⟩

/-- A record type: its fields in declaration order. -/
structure RecordType where
  fields : List Field
deriving DecidableEq

/-- Errors raised during repository construction (the `SchemaError` family). -/
inductive SchemaErr where
  | noIdField : SchemaErr
  | badIndexToken : Str → SchemaErr
  | badCompoundFormat : Str → SchemaErr
  | badCompoundOrder : Str → SchemaErr
deriving DecidableEq

/-- Whether a field's `bson` tag carries the `_id` marker: the tag is
nonempty and one of its comma-separated parts trims to `_id`, exactly the
test of the inner loop of `setIdField`. -/
def hasIdMarker (f : Field) : Bool :=
  f.bsonTag ≠ [] &&
    (splitOnChar ',' f.bsonTag).any (fun t => trimStr t = str "_id")

/-- Index of the first field carrying the `_id` marker, mirroring the early
return of the `setIdField` scan. -/
def firstMarkerIdx : List Field → Option Nat
  | [] => none
  | f :: rest =>
    if hasIdMarker f then some 0
    else (firstMarkerIdx rest).map (· + 1)

/-- Embeds `setIdField`: locate the identity field or fail. -/
def setIdField (t : RecordType) : Except SchemaErr Nat :=
  match firstMarkerIdx t.fields with
  | some i => .ok i
  | none => .error .noIdField

/-- Embeds `getFieldName`: the first comma-separated part of the `bson` tag,
or the Go field name when the tag is absent. -/
def getFieldName (f : Field) : Str :=
  if f.bsonTag = [] then f.name
  else
    match splitOnChar ',' f.bsonTag with
    | [] => f.name
    | p :: _ => p

/-- The key type of a simple index: unset, an integer order, or a named kind
(`text` / `2dsphere`); the `interface{}` value the Go loop accumulates. -/
inductive IndexKeyType where
  | unset : IndexKeyType
  | order : Int → IndexKeyType
  | kind : Str → IndexKeyType
deriving DecidableEq

/-- One simple index specification (`mongo.IndexModel` restricted to what the
code sets: one key plus the unique/sparse options). -/
structure IndexModel where
  key : Str
  keyType : IndexKeyType
  unique : Bool
  sparse : Bool
deriving DecidableEq

/-- The set of tokens the `switch` of `ensureSimpleIndexes` recognises. -/
def allowedIndexToken (tok : Str) : Bool :=
  tok = str "unique" || tok = str "1" || tok = str "-1" ||
  tok = str "sparse" || tok = str "text" || tok = str "2dsphere"

/-- One step of the `switch` over a trimmed index-tag token. -/
def indexTokenStep (acc : IndexModel) (tok : Str) : Except SchemaErr IndexModel :=
  if tok = str "unique" then .ok { acc with unique := true }
  else if tok = str "1" then .ok { acc with keyType := .order 1 }
  else if tok = str "-1" then .ok { acc with keyType := .order (-1) }
  else if tok = str "sparse" then .ok { acc with sparse := true }
  else if tok = str "text" || tok = str "2dsphere" then .ok { acc with keyType := .kind tok }
  else .error (.badIndexToken tok)

/-- Folds the token steps over a token list, stopping at the first error. -/
def indexTokensGo (acc : IndexModel) : List Str → Except SchemaErr IndexModel
  | [] => .ok acc
  | tok :: rest =>
    match indexTokenStep acc tok with
    | .error e => .error e
    | .ok acc' => indexTokensGo acc' rest

/-- Parses one field's `index` tag into its index specification. -/
def parseIndexTag (fieldName : Str) (tag : Str) : Except SchemaErr IndexModel :=
  indexTokensGo ⟨fieldName, .unset, false, false⟩
    ((splitOnChar ',' tag).map trimStr)

/-- The fields of a type that carry an `index` annotation. -/
def annotatedFields (t : RecordType) : List Field :=
  t.fields.filter (fun f => f.indexTag ≠ [])

/-- Embeds the specification-building part of `ensureSimpleIndexes`: one
index model per annotated field, in declaration order; the first unsupported
token aborts with the schema error.  (The subsequent `CreateMany` call to the
store is the provisioning side effect, outside this pure model.) -/
def ensureSimpleIndexes (t : RecordType) : Except SchemaErr (List IndexModel) :=
  emapM (fun f => parseIndexTag (getFieldName f) f.indexTag) (annotatedFields t)

/-- Embeds the brace stripping of `ensureCompoundIndex`:
`strings.ReplaceAll(tag, "\x7b", "")` then the same for the closing brace,
i.e. all brace characters are removed. -/
def stripBraces (s : Str) : Str :=
  s.filter (fun c => ¬(c = '{' || c = '}'))

/-- Parses one `field:order` pair of a compound-index group, mirroring the
Go body: split on the colon, reject any arity other than two naming the whole
part, then parse the order rejecting a non-integer naming the order text. -/
def parseCompoundPair (part : Str) : Except SchemaErr (Str × Int) :=
  let kv := splitOnChar ':' part
  if kv.length = 2 then
    match atoi (kv.getD 1 []) with
    | some n => .ok (kv.getD 0 [], n)
    | none => .error (.badCompoundOrder (kv.getD 1 []))
  else .error (.badCompoundFormat part)

/-- Parses one semicolon-separated compound-index group. -/
def parseCompoundGroup (g : Str) : Except SchemaErr (List (Str × Int)) :=
  emapM parseCompoundPair (splitOnChar ',' g)

/-- Parses a whole `cindex` tag: empty means no compound indexes; otherwise
braces are stripped, groups split on `;` and pairs on `,`. -/
def parseCompound (tag : Str) : Except SchemaErr (List (List (Str × Int))) :=
  if tag = [] then .ok []
  else emapM parseCompoundGroup (splitOnChar ';' (stripBraces tag))

/-- Embeds `ensureCompoundIndex`: the `cindex` tag is read from the field at
`idFieldIndex` — the identity field — and from no other field. -/
def ensureCompoundIndex (t : RecordType) (idFieldIndex : Nat) :
    Except SchemaErr (List (List (Str × Int))) :=
  parseCompound ((t.fields.getD idFieldIndex defaultField).cindexTag)

/-- The constructed repository value: the cached identity-field index plus the
index specifications handed to the store at construction. -/
structure Repo where
  idFieldIndex : Nat
  simpleIndexes : List IndexModel
  compoundIndexes : List (List (Str × Int))
deriving DecidableEq

/-- Embeds `NewMongoRepository`: identity resolution, then simple-index
extraction, then compound-index extraction; any error aborts construction and
no repository value is produced. -/
def newMongoRepository (t : RecordType) : Except SchemaErr Repo :=
  match setIdField t with
  | .error e => .error e
  | .ok idx =>
    match ensureSimpleIndexes t with
    | .error e => .error e
    | .ok simples =>
      match ensureCompoundIndex t idx with
      | .error e => .error e
      | .ok compounds => .ok ⟨idx, simples, compounds⟩

/-! ## Store collaborator model

Modelled from the spec: the document store (spec section 6) is an external
collaborator assumed to provide find / find-one / count / delete-many over a
collection state, here a `List Doc` in insertion order.  The filter matcher
covers the fragment the repository's surface exercises — equality on scalar
values and the `$gte` comparison on integers, with MongoDB's type bracketing
(a comparison between values of different types never matches). -/

/-- Scalar structural equality of document values; values of different kinds
or non-scalar kinds never compare equal in this fragment. -/
def jvalEqB : JVal → JVal → Bool
  | .jnull, .jnull => true
  | .jbool a, .jbool b => a = b
  | .jint a, .jint b => a = b
  | .jstr a, .jstr b => a = b
  | _, _ => false

/-- The `$gte` comparison: `v ≥ bound`, defined on integers only; any other
kind pairing is outside the type bracket and never matches. -/
def jvalGteB (v bound : JVal) : Bool :=
  match v, bound with
  | .jint a, .jint b => b ≤ a
  | _, _ => false

/-- Whether a condition object is an operator expression: its keys start with
a dollar sign. -/
def isOpDoc (o : List (Str × JVal)) : Bool :=
  !o.isEmpty && o.all (fun p => p.1.head? = some '$')

/-- Evaluates one operator of an operator expression against a field value. -/
def evalOpCond (key : Str) (operand v : JVal) : Bool :=
  if key = str "$gte" then jvalGteB v operand
  else if key = str "$eq" then jvalEqB operand v
  else false

/-- Matches one filter condition directly against one field value. -/
def matchCondDirect (cond v : JVal) : Bool :=
  match cond with
  | .jobj o => if isOpDoc o then o.all (fun p => evalOpCond p.1 p.2 v) else false
  | c => jvalEqB c v

/-- Looks a field up in a document. -/
def lookupField (d : Doc) (k : Str) : Option JVal :=
  (d.find? (fun p => p.1 = k)).map (·.2)

/-- Matches one filter condition against an optional field value: a missing
field matches only the null condition; an array field also matches when any
element matches. -/
def matchCond (cond : JVal) : Option JVal → Bool
  | none => jvalEqB cond .jnull
  | some v =>
    matchCondDirect cond v ||
      (match v with
       | .jarr xs => xs.any (matchCondDirect cond)
       | _ => false)

/-- Matches a filter document against a document: every condition must hold. -/
def matchFilter (f : Doc) (d : Doc) : Bool :=
  f.all (fun p => matchCond p.2 (lookupField d p.1))

/-- Matches an optional filter; an absent (nil) filter matches everything. -/
def matchFilterOpt : Option Doc → Doc → Bool
  | none, _ => true
  | some f, d => matchFilter f d

/-- A sort specification: (field, direction) pairs in order. -/
abbrev SortSpec := List (Str × Int)

/-- Three-way comparison of optional field values in the modelled fragment:
missing sorts before present, integers by value, otherwise equal. -/
def cmpFieldVal : Option JVal → Option JVal → Ordering
  | none, none => .eq
  | none, some _ => .lt
  | some _, none => .gt
  | some (.jint a), some (.jint b) => compare a b
  | some (.jstr a), some (.jstr b) => compare a b
  | some _, some _ => .eq

/-- Document order under a sort specification: the first key with a strict
difference decides, negated directions flip. -/
def sortLe (spec : SortSpec) (a b : Doc) : Bool :=
  match spec with
  | [] => true
  | (k, dir) :: rest =>
    match cmpFieldVal (lookupField a k) (lookupField b k) with
    | .lt => if dir < 0 then false else true
    | .gt => if dir < 0 then true else false
    | .eq => sortLe rest a b

/-- Insertion into a sorted list, keeping earlier elements first on ties. -/
def insertSorted (le : Doc → Doc → Bool) (x : Doc) : List Doc → List Doc
  | [] => [x]
  | y :: ys => if le y x then y :: insertSorted le x ys else x :: y :: ys

/-- Stable insertion sort of documents. -/
def sortDocs (le : Doc → Doc → Bool) : List Doc → List Doc
  | [] => []
  | x :: xs => insertSorted le x (sortDocs le xs)

/-- Find options the driver requests carry: sort, projection, skip, limit;
`none` models an option the code never set. -/
structure FindOpts where
  sort : Option SortSpec
  projection : Option Doc
  skip : Option Int
  limit : Option Int

/-- Find options with nothing set, `options.Find()` untouched. -/
def defaultFindOpts : FindOpts := ⟨none, none, none, none⟩

/-- Applies an optional sort. -/
def applySort : Option SortSpec → List Doc → List Doc
  | none, ds => ds
  | some spec, ds => sortDocs (sortLe spec) ds

/-- Applies an optional skip (the store clamps negatives to zero). -/
def applySkip : Option Int → List Doc → List Doc
  | none, ds => ds
  | some n, ds => ds.drop n.toNat

/-- Applies an optional limit: zero means no limit, otherwise at most the
magnitude of the limit is returned. -/
def applyLimit : Option Int → List Doc → List Doc
  | none, ds => ds
  | some n, ds => if n = 0 then ds else ds.take n.natAbs

/-- The store's find: filter, then sort, then skip, then limit. -/
def findDocs (state : List Doc) (filter : Option Doc) (opts : FindOpts) : List Doc :=
  applyLimit opts.limit (applySkip opts.skip
    (applySort opts.sort (state.filter (matchFilterOpt filter))))

/-- The store's find-one: first matching document in collection order. -/
def findOneDoc (state : List Doc) (filter : Option Doc) : Option Doc :=
  (state.filter (matchFilterOpt filter)).head?

/-- The store's count-documents. -/
def countDocs (state : List Doc) (filter : Option Doc) : Int :=
  (state.filter (matchFilterOpt filter)).length

/-- The store's delete-many: the remaining state and the deleted count. -/
def deleteManyDocs (state : List Doc) (filter : Option Doc) : List Doc × Int :=
  (state.filter (fun d => ¬matchFilterOpt filter d),
   (state.filter (matchFilterOpt filter)).length)

/-! ## Query builder (`src/querybuilder.go`)

The builder state holds the raw template strings; `ConstructQuery` renders
and parses them into the structured `Query`.  The caller-supplied context is
immaterial to this pure model and is dropped. -/

/-- The builder's accumulated state (`QueryBuilder` minus repo and context). -/
structure Builder where
  filter : Str
  projection : Str
  sort : Str
  pageable : Int × Int

/-- A fresh builder, as `QueryRunner` returns it. -/
def emptyBuilder : Builder := ⟨[], [], [], (0, 0)⟩

/-- The structured query `ConstructQuery` produces (`Query` in the source);
`none` models a `nil` map left unset because the clause text was empty. -/
structure Query where
  filter : Option Doc
  projection : Option Doc
  sort : Option SortSpec
  pageable : Int × Int

/-- Errors surfaced by the repository surface: the three clause-tagged
`QueryBuildError`s of `ConstructQuery`, and the driver's no-document error
for single-result lookups. -/
inductive RepoErr where
  | filterParse : PErr → RepoErr
  | projectionParse : PErr → RepoErr
  | sortParse : PErr → RepoErr
  | notFound : RepoErr

/-- Embeds the serialization `switch` of `replaceParams`: a top-level string
parameter is wrapped in double quotes verbatim (no escaping — `fmt.Sprintf`),
anything else goes through `json.Marshal`. -/
def serializeParam : PVal → Str
  | .scalar (.pstr s) => '"' :: s ++ ['"']
  | p => marshalPVal p

/-- The indexed loop of `replaceParams`: parameter `i` (1-based) textually
replaces every occurrence of its placeholder, in ascending index order. -/
def replaceParamsGo (i : Nat) : List PVal → Str → Str
  | [], q => q
  | p :: ps, q =>
    replaceParamsGo (i + 1) ps (replaceAll q ('?' :: natToStr i) (serializeParam p))

/-- Embeds `replaceParams`. -/
def replaceParams (query : Str) (params : List PVal) : Str :=
  replaceParamsGo 1 params query

/-- The filter block of `ConstructQuery`: an empty template leaves the filter
nil; otherwise parameters are substituted and the result parsed, a failure
being tagged as the filter clause's `QueryBuildError`. -/
def buildFilter (b : Builder) (params : List PVal) : Except RepoErr (Option Doc) :=
  if b.filter = [] then .ok none
  else
    match parseTopObj (replaceParams b.filter params) with
    | .error e => .error (.filterParse e)
    | .ok o => .ok (some o)

/-- The projection block of `ConstructQuery` (no parameter substitution). -/
def buildProjection (b : Builder) : Except RepoErr (Option Doc) :=
  if b.projection = [] then .ok none
  else
    match parseTopObj b.projection with
    | .error e => .error (.projectionParse e)
    | .ok o => .ok (some o)

/-- The sort block of `ConstructQuery` (no parameter substitution). -/
def buildSort (b : Builder) : Except RepoErr (Option SortSpec) :=
  if b.sort = [] then .ok none
  else
    match parseSortList b.sort with
    | .error e => .error (.sortParse e)
    | .ok sl => .ok (some sl)

/-- Embeds `ConstructQuery`: substitute parameters into the filter template
and parse it, parse the projection and sort texts (no substitution there),
and carry the pageable pair over; each clause failure aborts with its tagged
error and nothing is executed. -/
def constructQuery (b : Builder) (params : List PVal) : Except RepoErr Query :=
  match buildFilter b params with
  | .error e => .error e
  | .ok filt =>
    match buildProjection b with
    | .error e => .error e
    | .ok proj =>
      match buildSort b with
      | .error e => .error e
      | .ok srt => .ok ⟨filt, proj, srt, b.pageable⟩

/-! ## Repository façade (`src/repository.go`)

Each operation is modelled as a pure function of the collection state that
also returns the trace of store operations it issued, so that "no store
operation is executed" is a provable statement. -/

/-- One request sent to the store collaborator. -/
inductive StoreOp where
  | findOp : Option Doc → FindOpts → StoreOp
  | findOneOp : Option Doc → StoreOp
  | countOp : Option Doc → StoreOp
  | deleteManyOp : Option Doc → StoreOp

/-- The fixed filter the shipped `QueryOne` hands to `FindOne` — the string
literal in the source, not anything derived from the caller's query. -/
def queryTestFilter : Doc := [(str "name", JVal.jstr (str "Query Test"))]

/-- Embeds `MongoRepository.QueryOne`: a `FindOne` options value carrying the
caller's projection is built but never passed; the filter sent to the store
is the fixed `queryTestFilter`, and the caller's query is otherwise unused.
Decoding a missing document surfaces the driver's no-document error. -/
def queryOneExec (state : List Doc) (_q : Query) : Except RepoErr Doc :=
  match findOneDoc state (some queryTestFilter) with
  | some d => .ok d
  | none => .error .notFound

/-- The find options `QueryMany` assembles: sort and projection when set, and
— because `pageable` is a fixed-size two-element array, making the length
guard always true — skip `pageable[1] * pageable[0]` and limit `pageable[1]`
unconditionally. -/
def queryManyOpts (q : Query) : FindOpts :=
  { sort := q.sort
    projection := q.projection
    skip := some (q.pageable.2 * q.pageable.1)
    limit := some q.pageable.2 }

/-- Embeds `MongoRepository.QueryMany` against the store model. -/
def queryManyExec (state : List Doc) (q : Query) : List Doc :=
  findDocs state q.filter (queryManyOpts q)

/-- Embeds `MongoRepository.Count` for a constructed query. -/
def countExec (state : List Doc) (q : Query) : Int :=
  countDocs state q.filter

/-- Embeds `MongoRepository.Delete` for a constructed query. -/
def deleteExec (state : List Doc) (q : Query) : List Doc × Int :=
  deleteManyDocs state q.filter

/-- Embeds the terminal `QueryBuilder.QueryOne`: the variadic `params` are
spread into `ConstructQuery` (`params...`), so each parameter keeps its own
placeholder index. -/
def queryOneCall (b : Builder) (params : List PScalar) (state : List Doc) :
    List StoreOp × Except RepoErr Doc :=
  match constructQuery b (params.map PVal.scalar) with
  | .error e => ([], .error e)
  | .ok q => ([.findOneOp (some queryTestFilter)], queryOneExec state q)

/-- Embeds the terminal `QueryBuilder.QueryMany`: the variadic `params` slice
is passed to `ConstructQuery` WITHOUT `...`, so the whole caller slice
arrives as the single first parameter. -/
def queryManyCall (b : Builder) (params : List PScalar) (state : List Doc) :
    List StoreOp × Except RepoErr (List Doc) :=
  match constructQuery b [PVal.arr params] with
  | .error e => ([], .error e)
  | .ok q => ([.findOp q.filter (queryManyOpts q)], .ok (queryManyExec state q))

/-- Embeds the terminal `QueryBuilder.Count` (same unspread `params` slice). -/
def countCall (b : Builder) (params : List PScalar) (state : List Doc) :
    List StoreOp × Except RepoErr Int :=
  match constructQuery b [PVal.arr params] with
  | .error e => ([], .error e)
  | .ok q => ([.countOp q.filter], .ok (countExec state q))

/-- Embeds the terminal `QueryBuilder.Delete` (same unspread `params` slice);
the resulting collection state is returned alongside the deleted count, and
is unchanged when the call fails. -/
def deleteCall (b : Builder) (params : List PScalar) (state : List Doc) :
    List StoreOp × List Doc × Except RepoErr Int :=
  match constructQuery b [PVal.arr params] with
  | .error e => ([], state, .error e)
  | .ok q =>
    let (remaining, n) := deleteExec state q
    ([.deleteManyOp q.filter], remaining, .ok n)

/-! ## Save / SaveAll (`src/repository.go`)

A stored record is its identity value plus an opaque payload; identity 0
models the zero `primitive.ObjectID` — the "empty" sentinel `IsZero` tests.
The client-side generator `primitive.NewObjectID` is an explicit argument. -/

/-- A record instance: identity field plus the rest of the document. -/
structure Rec where
  id : Nat
  payload : Doc

/-- A write the save path issues: `ReplaceOne`/`ReplaceOneModel` with upsert,
keyed by an identity, or a plain insert (which the shipped code never
issues). -/
inductive StoreWrite where
  | insertOne : Rec → StoreWrite
  | replaceUpsert : Nat → Rec → StoreWrite

/-- Whether a write is an insert. -/
def isInsert : StoreWrite → Bool
  | .insertOne _ => true
  | .replaceUpsert _ _ => false

/-- Embeds `Save`: when the identity is the empty sentinel a client-generated
identifier is written into the record first; either way the write issued is a
`ReplaceOne` with upsert keyed by the (possibly fresh) identity, and the
updated record is returned. -/
def save (genId : Nat) (item : Rec) : Rec × StoreWrite :=
  let id := if item.id = 0 then genId else item.id
  let item' : Rec := ⟨id, item.payload⟩
  (item', .replaceUpsert id item')

/-- Index-aware map used to state what `SaveAll` does per position. -/
def mapIdxGo (f : Nat → α → β) : Nat → List α → List β
  | _, [] => []
  | i, x :: xs => f i x :: mapIdxGo f (i + 1) xs

/-- Embeds `SaveAll`: the same per-item decision as `Save`, with the
client-generated identifier assigned before the write; all write models are
then submitted as one `BulkWrite` batch (the single list returned here). -/
def saveAll (gen : Nat → Nat) (items : List Rec) : List Rec × List StoreWrite :=
  (mapIdxGo (fun i it => (save (gen i) it).1) 0 items,
   mapIdxGo (fun i it => (save (gen i) it).2) 0 items)

/-! ## Identity lookups and aggregation -/

/-- The identity filter `bson.M\x7b"_id": id\x7d` used by the by-id operations. -/
def idFilter (id : Nat) : Doc := [(str "_id", JVal.jint (id : Int))]

/-- Embeds `FindById`: find-one on the identity filter; decoding a missing
document surfaces the driver's no-document error. -/
def findById (state : List Doc) (id : Nat) : Except RepoErr Doc :=
  match findOneDoc state (some (idFilter id)) with
  | some d => .ok d
  | none => .error .notFound

/-- Embeds `AggregateOne`: the store's pipeline execution (external, spec
section 6) is abstracted as the result sequence it yields; the code decodes
the first document if the cursor has one and otherwise returns the nil
document with a nil error — never a not-found error. -/
def aggregateOne (aggResults : List Doc) : Except RepoErr (Option Doc) :=
  .ok aggResults.head?

/-! ## Specification-side rendering

Modelled from the spec: the templated surface substitutes "each placeholder
with its corresponding parameter" — placeholder syntax is a question mark
followed by a positive 1-indexed integer, matched against the parameter list,
each placeholder standing for its own parameter.  This is the comparison
definition for the refinement claim about `replaceParams`; it scans once and
replaces every placeholder independently. -/

/-- Fuel-indexed worker for `specPlaceholderSubst`. -/
def specSubstGo (params : List PVal) : Nat → Str → Str
  | 0, s => s
  | _ + 1, [] => []
  | fuel + 1, '?' :: rest =>
    let digits := rest.takeWhile isDigit
    if digits ≠ [] then
      let n := digitsToNat digits
      if 1 ≤ n ∧ n ≤ params.length then
        serializeParam (params.getD (n - 1) (.scalar .pnull)) ++
          specSubstGo params fuel (rest.dropWhile isDigit)
      else '?' :: specSubstGo params fuel rest
    else '?' :: specSubstGo params fuel rest
  | fuel + 1, c :: rest => c :: specSubstGo params fuel rest

/-- Modelled from the spec: replace each placeholder `?i` by the
serialization of its own parameter `i`, in one independent left-to-right
pass. -/
def specPlaceholderSubst (s : Str) (params : List PVal) : Str :=
  specSubstGo params (s.length + 1) s

/-! ## Well-formedness predicates used by the claim statements -/

/-- Whether one `field:order` compound pair is well formed: exactly one colon
and an integer order. -/
def wellFormedPair (part : Str) : Bool :=
  (splitOnChar ':' part).length = 2 &&
    (atoi ((splitOnChar ':' part).getD 1 [])).isSome

/-- Whether a whole `cindex` tag is well formed (or absent). -/
def wellFormedCompound (tag : Str) : Bool :=
  tag = [] ||
    (splitOnChar ';' (stripBraces tag)).all
      (fun g => (splitOnChar ',' g).all wellFormedPair)

/-- The property that a compound-index schema error names an offending
fragment of the tag it was raised for: the named fragment is one of the tag's
pairs and is malformed in the way the error says. -/
def compoundErrNames (tag : Str) (e : SchemaErr) : Prop :=
  ∃ g ∈ splitOnChar ';' (stripBraces tag), ∃ part ∈ splitOnChar ',' g,
    (e = .badCompoundFormat part ∧ (splitOnChar ':' part).length ≠ 2) ∨
    (e = .badCompoundOrder ((splitOnChar ':' part).getD 1 []) ∧
      (splitOnChar ':' part).length = 2 ∧
      atoi ((splitOnChar ':' part).getD 1 []) = none)

/-! ## Concrete record types, documents and queries used as witnesses -/

/-- A record type shaped like the README's `Person`: identity field plus an
indexed name field. -/
def personType : RecordType :=
  ⟨[⟨str "ID", str "_id,omitempty", [], []⟩,
    ⟨str "Name", str "name", str "1, unique", []⟩]⟩

/-- A record type with no identity-annotated field. -/
def noIdType : RecordType := ⟨[⟨str "Name", str "name", [], []⟩]⟩

/-- A record type whose index annotation carries an unrecognized token. -/
def bananaType : RecordType :=
  ⟨[⟨str "ID", str "_id", [], []⟩,
    ⟨str "Name", str "name", str "banana", []⟩]⟩

/-- A record type declaring its compound index on a non-identity field. -/
def cindexElsewhereType : RecordType :=
  ⟨[⟨str "ID", str "_id", [], []⟩,
    ⟨str "Name", str "name", [], str "{name:1,age:1}"⟩]⟩

/-- A record type declaring a well-formed compound index on its identity
field. -/
def cindexOnIdType : RecordType :=
  ⟨[⟨str "ID", str "_id", [], str "{name:1,age:-1}"⟩,
    ⟨str "Name", str "name", [], []⟩]⟩

/-- A document with one integer `age` field. -/
def docAge (n : Int) : Doc := [(str "age", JVal.jint n)]

/-- A document named `Alice`. -/
def aliceDoc : Doc := [(str "name", JVal.jstr (str "Alice"))]

/-- A document carrying the name the shipped `QueryOne` is hard-wired to. -/
def queryTestDoc : Doc := [(str "name", JVal.jstr (str "Query Test"))]

/-- The structured query filtering on `name = "Alice"`. -/
def aliceQuery : Query := ⟨some aliceDoc, none, none, (0, 0)⟩

/-- The pre-built structured filter for ages at least thirty. -/
def ageGte30 : Doc := [(str "age", .jobj [(str "$gte", .jint 30)])]

/-- The collection state with ages 30, 35 and 25. -/
def ageState : List Doc := [docAge 30, docAge 35, docAge 25]

/-- A builder holding the README's templated age filter. -/
def tmplBuilder : Builder :=
  { emptyBuilder with filter := str "\x7b\"age\":\x7b \"$gte\": ?1 \x7d\x7d" }

/-- A builder whose filter template is malformed. -/
def badFilterBuilder : Builder := { emptyBuilder with filter := str "\x7b" }

/-- Six documents, to exercise pagination. -/
def sixDocs : List Doc :=
  [docAge 1, docAge 2, docAge 3, docAge 4, docAge 5, docAge 6]

/-- The placeholder template containing a two-digit placeholder. -/
def c9Template : Str := str "\x7b\"a\": ?10\x7d"

/-- Ten integer parameters whose tenth is 99 and first is 7. -/
def c9Params : List PVal :=
  [.scalar (.pint 7), .scalar (.pint 2), .scalar (.pint 3), .scalar (.pint 4),
   .scalar (.pint 5), .scalar (.pint 6), .scalar (.pint 7), .scalar (.pint 8),
   .scalar (.pint 9), .scalar (.pint 99)]

/-! # Lemmas -/

theorem emapM_ok_iff {f : α → Except ε β} {l : List α} :
    (∃ ys, emapM f l = .ok ys) ↔ (∀ x ∈ l, ∃ y, f x = .ok y) := by
  induction l with
  | nil => simp [emapM]
  | cons x xs ih =>
    constructor
    · rintro ⟨ys, hys⟩
      unfold emapM at hys
      cases hfx : f x with
      | error e => simp [hfx] at hys
      | ok y =>
        simp only [hfx] at hys
        cases hrest : emapM f xs with
        | error e => simp [hrest] at hys
        | ok ys' =>
          intro z hz
          rcases List.mem_cons.mp hz with hz | hz
          · exact ⟨y, hz ▸ hfx⟩
          · exact (ih.mp ⟨ys', hrest⟩) z hz
    · intro h
      obtain ⟨y, hy⟩ := h x (List.mem_cons_self x xs)
      obtain ⟨ys, hys⟩ := ih.mpr (fun z hz => h z (List.mem_cons_of_mem x hz))
      exact ⟨y :: ys, by simp [emapM, hy, hys]⟩

theorem emapM_ok_length {f : α → Except ε β} {l : List α} {ys : List β}
    (h : emapM f l = .ok ys) : ys.length = l.length := by
  induction l generalizing ys with
  | nil => simp [emapM] at h; simp [← h]
  | cons x xs ih =>
    unfold emapM at h
    cases hfx : f x with
    | error e => simp [hfx] at h
    | ok y =>
      simp only [hfx] at h
      cases hrest : emapM f xs with
      | error e => simp [hrest] at h
      | ok ys' =>
        simp only [hrest] at h
        cases h
        simp [ih hrest]

theorem emapM_error_mem {f : α → Except ε β} {l : List α} {e : ε}
    (h : emapM f l = .error e) : ∃ x ∈ l, f x = .error e := by
  induction l with
  | nil => simp [emapM] at h
  | cons x xs ih =>
    unfold emapM at h
    cases hfx : f x with
    | error e' =>
      simp only [hfx] at h
      cases h
      exact ⟨x, List.mem_cons_self x xs, hfx⟩
    | ok y =>
      simp only [hfx] at h
      cases hrest : emapM f xs with
      | error e' =>
        simp only [hrest] at h
        cases h
        obtain ⟨z, hz, hfz⟩ := ih hrest
        exact ⟨z, List.mem_cons_of_mem x hz, hfz⟩
      | ok ys => simp [hrest] at h

theorem firstMarkerIdx_none_iff {l : List Field} :
    firstMarkerIdx l = none ↔ ∀ f ∈ l, hasIdMarker f = false := by
  induction l with
  | nil => simp [firstMarkerIdx]
  | cons f rest ih =>
    by_cases hf : hasIdMarker f
    · simp [firstMarkerIdx, hf]
    · simp only [firstMarkerIdx, hf, if_false, List.mem_cons]
      constructor
      · intro h g hg
        rcases hg with hg | hg
        · subst hg; simpa using hf
        · cases hrec : firstMarkerIdx rest with
          | none => exact ih.mp hrec g hg
          | some i => simp [hrec] at h
      · intro h
        have : firstMarkerIdx rest = none := ih.mpr (fun g hg => h g (Or.inr hg))
        simp [this]

theorem firstMarkerIdx_some {l : List Field} {i : Nat}
    (h : firstMarkerIdx l = some i) :
    hasIdMarker (l.getD i defaultField) = true ∧
      ∀ j, j < i → hasIdMarker (l.getD j defaultField) = false := by
  induction l generalizing i with
  | nil => simp [firstMarkerIdx] at h
  | cons f rest ih =>
    by_cases hf : hasIdMarker f
    · simp only [firstMarkerIdx, hf, if_true] at h
      cases h
      exact ⟨by simpa using hf, fun j hj => absurd hj (Nat.not_lt_zero j)⟩
    · simp only [firstMarkerIdx, hf, if_false] at h
      cases hrec : firstMarkerIdx rest with
      | none => rw [hrec] at h; simp at h
      | some i' =>
        rw [hrec] at h
        simp at h
        subst h
        obtain ⟨h1, h2⟩ := ih hrec
        refine ⟨by simpa using h1, ?_⟩
        intro j hj
        cases j with
        | zero => simpa using hf
        | succ j' =>
          have : j' < i' := Nat.lt_of_succ_lt_succ hj
          simpa using h2 j' this

theorem indexTokenStep_ok_iff {acc : IndexModel} {tok : Str} :
    (∃ acc', indexTokenStep acc tok = .ok acc') ↔ allowedIndexToken tok = true := by
  unfold indexTokenStep allowedIndexToken
  split_ifs with h1 h2 h3 h4 h5 <;> simp_all

theorem indexTokenStep_error {acc : IndexModel} {tok : Str} {e : SchemaErr}
    (h : indexTokenStep acc tok = .error e) : e = .badIndexToken tok := by
  unfold indexTokenStep at h
  split_ifs at h
  simp_all

theorem indexTokensGo_ok_iff {toks : List Str} {acc : IndexModel} :
    (∃ m, indexTokensGo acc toks = .ok m) ↔
      ∀ tok ∈ toks, allowedIndexToken tok = true := by
  induction toks generalizing acc with
  | nil => simp [indexTokensGo]
  | cons tok rest ih =>
    constructor
    · rintro ⟨m, hm⟩
      unfold indexTokensGo at hm
      cases hstep : indexTokenStep acc tok with
      | error e => simp [hstep] at hm
      | ok acc' =>
        simp only [hstep] at hm
        intro z hz
        rcases List.mem_cons.mp hz with hz | hz
        · exact indexTokenStep_ok_iff.mp ⟨acc', hz ▸ hstep⟩
        · exact ih.mp ⟨m, hm⟩ z hz
    · intro h
      obtain ⟨acc', hacc'⟩ :=
        (@indexTokenStep_ok_iff acc tok).mpr (h tok (List.mem_cons_self tok rest))
      obtain ⟨m, hm⟩ := (@ih acc').mpr (fun z hz => h z (List.mem_cons_of_mem tok hz))
      exact ⟨m, by simp [indexTokensGo, hacc', hm]⟩

theorem parseIndexTag_ok_iff {n tag : Str} :
    (∃ m, parseIndexTag n tag = .ok m) ↔
      ∀ tok ∈ (splitOnChar ',' tag).map trimStr, allowedIndexToken tok = true := by
  unfold parseIndexTag
  exact indexTokensGo_ok_iff

theorem parseCompoundPair_ok_iff {part : Str} :
    (∃ p, parseCompoundPair part = .ok p) ↔ wellFormedPair part = true := by
  unfold parseCompoundPair wellFormedPair
  by_cases hlen : (splitOnChar ':' part).length = 2
  · rw [if_pos hlen]
    cases hv : atoi ((splitOnChar ':' part).getD 1 []) <;>
      simp [hv, hlen, Option.isSome]
  · rw [if_neg hlen]
    simp [hlen]

theorem parseCompoundPair_error {part : Str} {e : SchemaErr}
    (h : parseCompoundPair part = .error e) :
    (e = .badCompoundFormat part ∧ (splitOnChar ':' part).length ≠ 2) ∨
      (e = .badCompoundOrder ((splitOnChar ':' part).getD 1 []) ∧
        (splitOnChar ':' part).length = 2 ∧
        atoi ((splitOnChar ':' part).getD 1 []) = none) := by
  unfold parseCompoundPair at h
  by_cases hlen : (splitOnChar ':' part).length = 2
  · rw [if_pos hlen] at h
    cases hv : atoi ((splitOnChar ':' part).getD 1 []) with
    | none => rw [hv] at h; cases h; exact Or.inr ⟨rfl, hlen, rfl⟩
    | some n => rw [hv] at h; cases h
  · rw [if_neg hlen] at h
    cases h
    exact Or.inl ⟨rfl, hlen⟩

theorem parseCompoundGroup_ok_iff {g : Str} :
    (∃ ps, parseCompoundGroup g = .ok ps) ↔
      ∀ part ∈ splitOnChar ',' g, wellFormedPair part = true := by
  unfold parseCompoundGroup
  rw [emapM_ok_iff]
  constructor
  · intro h part hp
    exact parseCompoundPair_ok_iff.mp (h part hp)
  · intro h part hp
    exact parseCompoundPair_ok_iff.mpr (h part hp)

theorem parseCompound_ok_iff {tag : Str} :
    (∃ specs, parseCompound tag = .ok specs) ↔ wellFormedCompound tag = true := by
  unfold parseCompound wellFormedCompound
  by_cases htag : tag = []
  · simp [htag]
  · rw [if_neg htag]
    have hd : (decide (tag = []) : Bool) = false := by simp [htag]
    rw [hd, Bool.false_or]
    rw [emapM_ok_iff, List.all_eq_true]
    constructor
    · intro h g hg
      rw [List.all_eq_true]
      intro part hp
      obtain ⟨ps, hps⟩ := h g hg
      exact parseCompoundGroup_ok_iff.mp ⟨ps, hps⟩ part hp
    · intro h g hg
      exact parseCompoundGroup_ok_iff.mpr
        (fun part hp => List.all_eq_true.mp (h g hg) part hp)

theorem parseCompound_error_names {tag : Str} {e : SchemaErr}
    (h : parseCompound tag = .error e) : compoundErrNames tag e := by
  unfold parseCompound at h
  by_cases htag : tag = []
  · simp [htag] at h
  · simp only [htag, if_false] at h
    obtain ⟨g, hg, hge⟩ := emapM_error_mem h
    obtain ⟨part, hp, hpe⟩ := emapM_error_mem hge
    exact ⟨g, hg, part, hp, parseCompoundPair_error hpe⟩

theorem buildFilter_error {b : Builder} {ps : List PVal} {e : RepoErr}
    (h : buildFilter b ps = .error e) :
    ∃ m, e = .filterParse m ∧ b.filter ≠ [] ∧
      parseTopObj (replaceParams b.filter ps) = .error m := by
  unfold buildFilter at h
  by_cases hf : b.filter = []
  · simp [hf] at h
  · simp only [hf, if_false] at h
    cases hp : parseTopObj (replaceParams b.filter ps) with
    | error m => rw [hp] at h; cases h; exact ⟨m, rfl, hf, rfl⟩
    | ok o => rw [hp] at h; cases h

theorem buildProjection_error {b : Builder} {e : RepoErr}
    (h : buildProjection b = .error e) :
    ∃ m, e = .projectionParse m ∧ b.projection ≠ [] ∧
      parseTopObj b.projection = .error m := by
  unfold buildProjection at h
  by_cases hf : b.projection = []
  · simp [hf] at h
  · simp only [hf, if_false] at h
    cases hp : parseTopObj b.projection with
    | error m => rw [hp] at h; cases h; exact ⟨m, rfl, hf, rfl⟩
    | ok o => rw [hp] at h; cases h

theorem buildSort_error {b : Builder} {e : RepoErr}
    (h : buildSort b = .error e) :
    ∃ m, e = .sortParse m ∧ b.sort ≠ [] ∧ parseSortList b.sort = .error m := by
  unfold buildSort at h
  by_cases hf : b.sort = []
  · simp [hf] at h
  · simp only [hf, if_false] at h
    cases hp : parseSortList b.sort with
    | error m => rw [hp] at h; cases h; exact ⟨m, rfl, hf, rfl⟩
    | ok o => rw [hp] at h; cases h

theorem constructQuery_error_clause {b : Builder} {ps : List PVal} {e : RepoErr}
    (h : constructQuery b ps = .error e) :
    (∃ m, e = .filterParse m ∧ b.filter ≠ [] ∧
       parseTopObj (replaceParams b.filter ps) = .error m) ∨
    (∃ m, e = .projectionParse m ∧ b.projection ≠ [] ∧
       parseTopObj b.projection = .error m) ∨
    (∃ m, e = .sortParse m ∧ b.sort ≠ [] ∧ parseSortList b.sort = .error m) := by
  unfold constructQuery at h
  cases h1 : buildFilter b ps with
  | error e1 =>
    rw [h1] at h; cases h
    exact Or.inl (buildFilter_error h1)
  | ok filt =>
    rw [h1] at h
    cases h2 : buildProjection b with
    | error e2 =>
      rw [h2] at h; cases h
      exact Or.inr (Or.inl (buildProjection_error h2))
    | ok proj =>
      rw [h2] at h
      cases h3 : buildSort b with
      | error e3 =>
        rw [h3] at h; cases h
        exact Or.inr (Or.inr (buildSort_error h3))
      | ok srt => rw [h3] at h; cases h

theorem mapIdxGo_getD {f : Nat → α → β} {l : List α} {da : α} {db : β} :
    ∀ k i, i < l.length →
      (mapIdxGo f k l).getD i db = f (k + i) (l.getD i da) := by
  induction l with
  | nil => intro k i h; simp at h
  | cons x xs ih =>
    intro k i h
    cases i with
    | zero => simp [mapIdxGo]
    | succ i' =>
      have : i' < xs.length := Nat.lt_of_succ_lt_succ h
      simp only [mapIdxGo, List.getD_cons_succ]
      rw [ih (k + 1) i' this]
      congr 1
      omega

/-! # Claim theorems -/

/-- C1: refuted evidence — the shipped `QueryOne` does not execute the
caller's Query Spec.  On a collection holding only the document named Alice,
a query whose filter is exactly that document comes back not-found, although
a find-one with the caller's filter finds the document; and on a collection
holding only the hard-wired "Query Test" document, the same Alice query
returns that document even though it does not match the caller's filter. -/
theorem c1_queryOne_fixed_filter :
    queryOneExec [aliceDoc] aliceQuery = .error .notFound ∧
    findOneDoc [aliceDoc] aliceQuery.filter = some aliceDoc ∧
    queryOneExec [queryTestDoc] aliceQuery = .ok queryTestDoc ∧
    matchFilterOpt aliceQuery.filter queryTestDoc = false :=
  ⟨rfl, rfl, rfl, rfl⟩

/-- C2: refuted evidence — on the collection with ages 30, 35, 25 the
templated `QueryMany` with filter template on `age $gte ?1` and parameter 30
substitutes the JSON of the whole parameter slice (`[30]`) for the
placeholder (the variadic slice is passed to `ConstructQuery` unspread), so
the executed filter compares ages against an array and returns the empty
result set, while the structurally equivalent pre-built filter returns the
two matching documents. -/
theorem c2_templated_vs_structured :
    replaceParams tmplBuilder.filter [PVal.arr [.pint 30]] =
      str "\x7b\"age\":\x7b \"$gte\": [30] \x7d\x7d" ∧
    queryManyCall tmplBuilder [.pint 30] ageState =
      ([.findOp (some [(str "age", .jobj [(str "$gte", .jarr [.jint 30])])])
          ⟨none, none, some 0, some 0⟩], .ok []) ∧
    queryManyExec ageState ⟨some ageGte30, none, none, (0, 0)⟩ =
      [docAge 30, docAge 35] :=
  ⟨rfl, rfl, rfl⟩

/-- C3: counterexample — a record whose identity is the empty sentinel is
not written with an insert: `Save` generates the identifier client-side and
issues a replace-with-upsert keyed by it. -/
theorem c3_empty_identity_not_inserted :
    (⟨0, []⟩ : Rec).id = 0 ∧
    (save 7 ⟨0, []⟩).2 = .replaceUpsert 7 ⟨7, []⟩ ∧
    isInsert (save 7 ⟨0, []⟩).2 = false :=
  ⟨rfl, rfl, rfl⟩

/-- C3 (amended): for an empty identity, `Save` writes a client-generated
identifier into the record and issues a replace-with-upsert keyed by it; for
a non-empty identity it issues a replace-with-upsert keyed by that identity;
`SaveAll` applies the same per-item decision with the client-generated
identifier assigned before the batched write. -/
theorem c3_save_replace_upsert (genId : Nat) (item : Rec) (gen : Nat → Nat)
    (items : List Rec) :
    (item.id = 0 →
      save genId item =
        (⟨genId, item.payload⟩, .replaceUpsert genId ⟨genId, item.payload⟩)) ∧
    (item.id ≠ 0 →
      save genId item =
        (⟨item.id, item.payload⟩, .replaceUpsert item.id ⟨item.id, item.payload⟩)) ∧
    (∀ i, i < items.length →
      (saveAll gen items).1.getD i ⟨0, []⟩ =
        (save (gen i) (items.getD i ⟨0, []⟩)).1 ∧
      (saveAll gen items).2.getD i (.insertOne ⟨0, []⟩) =
        (save (gen i) (items.getD i ⟨0, []⟩)).2) := by
  refine ⟨?_, ?_, ?_⟩
  · intro h; simp [save, h]
  · intro h; simp [save, h]
  · intro i hi
    constructor
    · have hg := @mapIdxGo_getD Rec Rec
        (fun i it => (save (gen i) it).1) items ⟨0, []⟩ ⟨0, []⟩ 0 i hi
      simpa [saveAll] using hg
    · have hg := @mapIdxGo_getD Rec StoreWrite
        (fun i it => (save (gen i) it).2) items ⟨0, []⟩ (.insertOne ⟨0, []⟩) 0 i hi
      simpa [saveAll] using hg

/-- C3 witness: the amended save semantics evaluated at concrete records. -/
theorem c3_save_replace_upsert_witness :
    save 7 ⟨0, []⟩ = (⟨7, []⟩, .replaceUpsert 7 ⟨7, []⟩) ∧
    save 5 ⟨3, []⟩ = (⟨3, []⟩, .replaceUpsert 3 ⟨3, []⟩) ∧
    (saveAll (fun _ => 9) [⟨0, []⟩]).2.getD 0 (.insertOne ⟨0, []⟩) =
      (save 9 ⟨0, []⟩).2 :=
  ⟨(c3_save_replace_upsert 7 ⟨0, []⟩ (fun _ => 9) []).1 rfl,
   (c3_save_replace_upsert 5 ⟨3, []⟩ (fun _ => 9) []).2.1 (by decide),
   ((c3_save_replace_upsert 9 ⟨0, []⟩ (fun _ => 9) [⟨0, []⟩]).2.2 0
      (by decide)).2⟩

/-- C4: counterexample — supplying only the page size (page index left at
its zero default) does not result in "no pagination": on six matching
documents the executed request limits the result to five. -/
theorem c4_only_size_still_limits :
    sixDocs.length = 6 ∧
    queryManyExec sixDocs ⟨none, none, none, (0, 5)⟩ =
      [docAge 1, docAge 2, docAge 3, docAge 4, docAge 5] :=
  ⟨rfl, rfl⟩

/-- C4 (amended): the find request always carries skip = page index × page
size and limit = page size (the pageable pair is a fixed-size array, so the
length-two guard always holds); page index 0 gives skip 0; a zero page size
yields skip 0 and limit 0, which the store treats as no pagination; a
nonzero page size is always applied as a limit, even with the page index at
its default. -/
theorem c4_pagination_arithmetic (q : Query) (state : List Doc) :
    (queryManyOpts q).skip = some (q.pageable.1 * q.pageable.2) ∧
    (queryManyOpts q).limit = some q.pageable.2 ∧
    (q.pageable.1 = 0 → (queryManyOpts q).skip = some 0) ∧
    (q.pageable.2 = 0 →
      queryManyExec state q =
        applySort q.sort (state.filter (matchFilterOpt q.filter))) := by
  refine ⟨?_, rfl, ?_, ?_⟩
  · simp [queryManyOpts, Int.mul_comm]
  · intro h; simp [queryManyOpts, h]
  · intro h
    simp [queryManyExec, findDocs, queryManyOpts, h, applySkip, applyLimit]

/-- C4 witness: the pagination arithmetic evaluated at concrete queries. -/
theorem c4_pagination_arithmetic_witness :
    (queryManyOpts ⟨none, none, none, (0, 5)⟩).skip = some 0 ∧
    queryManyExec sixDocs ⟨none, none, none, (3, 0)⟩ =
      applySort none (sixDocs.filter (matchFilterOpt none)) :=
  ⟨(c4_pagination_arithmetic ⟨none, none, none, (0, 5)⟩ []).2.2.1 rfl,
   (c4_pagination_arithmetic ⟨none, none, none, (3, 0)⟩ sixDocs).2.2.2 rfl⟩

/-- C5: a record type none of whose fields carries the `_id` marker fails
construction with the no-identity schema error and yields no repository
value; when identity resolution succeeds with index `i`, the field at `i`
carries the marker and no earlier field does — the first match in
declaration order is selected. -/
theorem c5_identity_resolution (t : RecordType) :
    ((∀ f ∈ t.fields, hasIdMarker f = false) →
      newMongoRepository t = .error .noIdField) ∧
    (∀ i, setIdField t = .ok i →
      hasIdMarker (t.fields.getD i defaultField) = true ∧
      ∀ j, j < i → hasIdMarker (t.fields.getD j defaultField) = false) := by
  constructor
  · intro h
    have hn : firstMarkerIdx t.fields = none := firstMarkerIdx_none_iff.mpr h
    unfold newMongoRepository setIdField
    rw [hn]
  · intro i hi
    unfold setIdField at hi
    cases hm : firstMarkerIdx t.fields with
    | none => rw [hm] at hi; cases hi
    | some i' => rw [hm] at hi; cases hi; exact firstMarkerIdx_some hm

/-- C5 witness: identity resolution evaluated at concrete record types. -/
theorem c5_identity_resolution_witness :
    newMongoRepository noIdType = .error .noIdField ∧
    hasIdMarker (personType.fields.getD 0 defaultField) = true :=
  ⟨(c5_identity_resolution noIdType).1 (by decide),
   ((c5_identity_resolution personType).2 0 rfl).1⟩

/-- C6: simple-index extraction succeeds exactly when every comma-separated,
trimmed token of every annotated field is one of the six recognised tokens;
on success exactly one index specification is emitted per annotated field;
and a failure (an unrecognized token) prevents any repository from being
constructed — the field is never silently skipped. -/
theorem c6_simple_index_tokens (t : RecordType) :
    ((∃ ms, ensureSimpleIndexes t = .ok ms) ↔
      ∀ f ∈ t.fields, f.indexTag ≠ [] →
        ∀ tok ∈ (splitOnChar ',' f.indexTag).map trimStr,
          allowedIndexToken tok = true) ∧
    (∀ ms, ensureSimpleIndexes t = .ok ms →
      ms.length = (annotatedFields t).length) ∧
    (∀ e, ensureSimpleIndexes t = .error e → ∀ r, newMongoRepository t ≠ .ok r) := by
  refine ⟨?_, ?_, ?_⟩
  · unfold ensureSimpleIndexes
    rw [emapM_ok_iff]
    constructor
    · intro h f hf htag
      have hmem : f ∈ annotatedFields t := by
        unfold annotatedFields
        rw [List.mem_filter]
        exact ⟨hf, by simpa using htag⟩
      exact parseIndexTag_ok_iff.mp (h f hmem)
    · intro h f hf
      have hsplit : f ∈ t.fields ∧ f.indexTag ≠ [] := by
        unfold annotatedFields at hf
        rw [List.mem_filter] at hf
        exact ⟨hf.1, by simpa using hf.2⟩
      exact parseIndexTag_ok_iff.mpr (h f hsplit.1 hsplit.2)
  · intro ms hms
    exact emapM_ok_length hms
  · intro e he r
    unfold newMongoRepository
    cases hsi : setIdField t with
    | error e' => simp
    | ok i => rw [he]; simp

/-- C6 witness: index-token validation evaluated at concrete record types. -/
theorem c6_simple_index_tokens_witness :
    (∃ ms, ensureSimpleIndexes personType = .ok ms) ∧
    (∀ r, newMongoRepository bananaType ≠ .ok r) :=
  ⟨(c6_simple_index_tokens personType).1.mpr (by decide),
   (c6_simple_index_tokens bananaType).2.2 (.badIndexToken (str "banana")) rfl⟩

/-- C7: counterexample — the compound-index annotation is not read from any
field: declared on a non-identity field it parses to a compound group, yet
construction succeeds with zero compound indexes, silently ignoring it. -/
theorem c7_cindex_on_other_field_ignored :
    (cindexElsewhereType.fields.getD 1 defaultField).cindexTag =
      str "{name:1,age:1}" ∧
    parseCompound (str "{name:1,age:1}") =
      .ok [[(str "name", 1), (str "age", 1)]] ∧
    newMongoRepository cindexElsewhereType = .ok ⟨0, [], []⟩ :=
  ⟨rfl, rfl, rfl⟩

/-- C7 (amended): the compound-index annotation is read from the identity
field only; its text splits into brace-stripped groups on `;` and pairs on
`,`; absence yields zero compound indexes with no error; parsing succeeds
exactly on well-formed tags, and every failure is a schema error naming the
offending fragment (wrong pair arity naming the pair, or a non-integer order
naming the order text). -/
theorem c7_compound_index_from_identity_field (t : RecordType) (idx : Nat)
    (tag : Str) :
    ((t.fields.getD idx defaultField).cindexTag = tag →
      ensureCompoundIndex t idx = parseCompound tag) ∧
    (parseCompound [] = .ok []) ∧
    ((∃ specs, parseCompound tag = .ok specs) ↔ wellFormedCompound tag = true) ∧
    (∀ e, parseCompound tag = .error e → compoundErrNames tag e) := by
  refine ⟨?_, rfl, parseCompound_ok_iff, fun e => parseCompound_error_names⟩
  intro h
  unfold ensureCompoundIndex
  rw [h]

/-- C7 witness: compound-index extraction evaluated at concrete inputs. -/
theorem c7_compound_index_from_identity_field_witness :
    ensureCompoundIndex cindexOnIdType 0 = parseCompound (str "{name:1,age:-1}") ∧
    (∃ specs, parseCompound (str "{name:1,age:-1}") = .ok specs) ∧
    compoundErrNames (str "{name:1,age:x}") (.badCompoundOrder (str "x")) :=
  ⟨(c7_compound_index_from_identity_field cindexOnIdType 0
      (str "{name:1,age:-1}")).1 rfl,
   (c7_compound_index_from_identity_field cindexOnIdType 0
      (str "{name:1,age:-1}")).2.2.1.mpr (by decide),
   (c7_compound_index_from_identity_field cindexOnIdType 0
      (str "{name:1,age:x}")).2.2.2 (.badCompoundOrder (str "x")) rfl⟩

/-- C8: whenever rendering-and-parsing of the templated clauses fails, every
terminal call returns the `QueryBuildError` with no store operation issued
and the collection state unchanged; and every such error is tagged with the
clause — filter, projection or sort — whose text actually failed to parse. -/
theorem c8_parse_failure_no_op (b : Builder) (params : List PScalar)
    (state : List Doc) :
    (∀ e, constructQuery b (params.map PVal.scalar) = .error e →
      queryOneCall b params state = ([], .error e)) ∧
    (∀ e, constructQuery b [PVal.arr params] = .error e →
      queryManyCall b params state = ([], .error e) ∧
      countCall b params state = ([], .error e) ∧
      deleteCall b params state = ([], state, .error e)) ∧
    (∀ ps e, constructQuery b ps = .error e →
      (∃ m, e = .filterParse m ∧ b.filter ≠ [] ∧
        parseTopObj (replaceParams b.filter ps) = .error m) ∨
      (∃ m, e = .projectionParse m ∧ b.projection ≠ [] ∧
        parseTopObj b.projection = .error m) ∨
      (∃ m, e = .sortParse m ∧ b.sort ≠ [] ∧
        parseSortList b.sort = .error m)) := by
  refine ⟨?_, ?_, ?_⟩
  · intro e he
    unfold queryOneCall
    rw [he]
  · intro e he
    refine ⟨?_, ?_, ?_⟩
    · unfold queryManyCall; rw [he]
    · unfold countCall; rw [he]
    · unfold deleteCall; rw [he]
  · intro ps e he
    exact constructQuery_error_clause he

/-- C8 witness: a malformed filter template evaluated through the terminal
calls. -/
theorem c8_parse_failure_no_op_witness :
    queryOneCall badFilterBuilder [] [] =
      ([], .error (.filterParse (str "expected field name"))) ∧
    queryManyCall badFilterBuilder [] [] =
      ([], .error (.filterParse (str "expected field name"))) ∧
    deleteCall badFilterBuilder [] [docAge 1] =
      ([], [docAge 1], .error (.filterParse (str "expected field name"))) :=
  ⟨(c8_parse_failure_no_op badFilterBuilder [] []).1
      (.filterParse (str "expected field name")) rfl,
   ((c8_parse_failure_no_op badFilterBuilder [] []).2.1
      (.filterParse (str "expected field name")) rfl).1,
   ((c8_parse_failure_no_op badFilterBuilder [] [docAge 1]).2.1
      (.filterParse (str "expected field name")) rfl).2.2⟩

/-- C9: the template renderer substitutes placeholders in ascending
parameter index with global textual replacement, so a template containing
the placeholder `?10` with ten parameters renders the first parameter's text
followed by a zero where the independent per-placeholder substitution of the
specification would render the tenth parameter. -/
theorem c9_sequential_global_replacement :
    replaceParams c9Template c9Params = str "\x7b\"a\": 70\x7d" ∧
    specPlaceholderSubst c9Template c9Params = str "\x7b\"a\": 99\x7d" ∧
    replaceParams c9Template c9Params ≠ specPlaceholderSubst c9Template c9Params := by
  refine ⟨rfl, rfl, ?_⟩
  decide

/-- C10: an aggregation whose pipeline execution yields zero documents makes
`AggregateOne` return the empty document with no error, while the
single-result lookups report not-found: `FindById` errors whenever no
document matches the identity filter, and the shipped `QueryOne` errors
whenever no document matches its (fixed) filter. -/
theorem c10_aggregateOne_empty_is_ok (aggRes state : List Doc) (id : Nat) :
    (aggRes = [] → aggregateOne aggRes = .ok none) ∧
    ((∀ d ∈ state, matchFilter (idFilter id) d = false) →
      findById state id = .error .notFound) ∧
    ((∀ d ∈ state, matchFilter queryTestFilter d = false) →
      ∀ q, queryOneExec state q = .error .notFound) := by
  refine ⟨?_, ?_, ?_⟩
  · intro h; subst h; rfl
  · intro h
    unfold findById findOneDoc
    have hnil : state.filter (matchFilterOpt (some (idFilter id))) = [] :=
      List.filter_eq_nil_iff.mpr (by intro d hd; simpa [matchFilterOpt] using h d hd)
    rw [hnil]
    rfl
  · intro h q
    unfold queryOneExec findOneDoc
    have hnil : state.filter (matchFilterOpt (some queryTestFilter)) = [] :=
      List.filter_eq_nil_iff.mpr (by intro d hd; simpa [matchFilterOpt] using h d hd)
    rw [hnil]
    rfl

/-- C10 witness: the aggregation/lookup contrast evaluated concretely. -/
theorem c10_aggregateOne_empty_is_ok_witness :
    aggregateOne [] = .ok none ∧
    findById [docAge 1] 5 = .error .notFound ∧
    queryOneExec [docAge 1] aliceQuery = .error .notFound :=
  ⟨(c10_aggregateOne_empty_is_ok [] [] 0).1 rfl,
   (c10_aggregateOne_empty_is_ok [] [docAge 1] 5).2.1 (by decide),
   (c10_aggregateOne_empty_is_ok [] [docAge 1] 5).2.2 (by decide) aliceQuery⟩

end MongoRepo
